/-
Verification of spec claims against the FlaxEngine sources.

The file shallowly embeds the relevant program fragments:
 * the volumetric fog compute shaders (CS_FinalIntegration, CS_LightScattering,
   PS_InjectLight) from the fog shader source,
 * Flax.Build Windows platform SDK / toolset probing (WindowsPlatformBase),
 * Platform.GetToolchain caching,
 * TextureTool.Build.cs module setup,
 * EditorCacheModule save/load,
 * ImportedModelData::LOD::GetBox from ModelTool.

Shader arithmetic that needs transcendental functions (exp, sqrt) is modelled
over the real numbers; purely algebraic shader logic and the C# logic are
modelled over the rationals / inductive data so they stay executable.
-/
import Mathlib

/-! ## ImportedModelData::LOD::GetBox (ModelTool) -/

/-- A 3D point, modelling the float3 positions over the rationals. -/
abbrev QPoint : Type := ℚ × ℚ × ℚ

/-- Axis-aligned bounding box with minimum and maximum corner. -/
structure BoundingBox where
  minimum : QPoint
  maximum : QPoint
deriving DecidableEq, Repr

/-- `BoundingBox::Empty` constant. Its concrete corner values are not under
src (the BoundingBox type lives elsewhere in the engine); the claim only uses
it as a distinguished constant, so any fixed value serves. -/
def BoundingBox.Empty : BoundingBox := ⟨(0, 0, 0), (0, 0, 0)⟩

/-- Modelled from the spec: `BoundingBox::Merge(a, b, out r)` is not under
src; it is the standard axis-aligned box union (componentwise min of the
minimum corners and max of the maximum corners). The claim treats merge as an
opaque combining operation, so only its identity matters here. -/
def BoundingBox.merge (a b : BoundingBox) : BoundingBox :=
  ⟨(min a.minimum.1 b.minimum.1, min a.minimum.2.1 b.minimum.2.1, min a.minimum.2.2 b.minimum.2.2),
   (max a.maximum.1 b.maximum.1, max a.maximum.2.1 b.maximum.2.1, max a.maximum.2.2 b.maximum.2.2)⟩

/-- A mesh of an imported LOD. `MeshData::CalculateBox` is not under src, so
the box a mesh reports is carried as an abstract per-mesh value `box`;
`Positions` is the vertex position array that `GetBox` tests with
`HasItems()`. -/
structure MeshData where
  Positions : List QPoint
  box : BoundingBox

/-- `ImportedModelData::LOD::GetBox` translated from ModelTool: empty mesh
list gives `BoundingBox::Empty`; otherwise start from mesh 0's box and for
each later mesh with non-empty `Positions` merge its box in. -/
def lodGetBox (meshes : List MeshData) : BoundingBox :=
  match meshes with
  | [] => BoundingBox.Empty
  | m0 :: rest =>
      rest.foldl (fun box m => if m.Positions.isEmpty then box else BoundingBox.merge box m.box) m0.box

/-- The claim's description of `GetBox`, written from the spec sentence: the
box of mesh 0 folded with the boxes of exactly the subsequent meshes whose
`Positions` are non-empty. -/
def lodGetBoxSpec (meshes : List MeshData) : BoundingBox :=
  match meshes with
  | [] => BoundingBox.Empty
  | m0 :: rest =>
      ((rest.filter (fun m => !m.Positions.isEmpty)).map (fun m => m.box)).foldl BoundingBox.merge m0.box

lemma lodGetBox_fold_eq (l : List MeshData) (init : BoundingBox) :
    l.foldl (fun box m => if m.Positions.isEmpty then box else BoundingBox.merge box m.box) init =
      ((l.filter (fun m => !m.Positions.isEmpty)).map (fun m => m.box)).foldl BoundingBox.merge init := by
  induction l generalizing init with
  | nil => rfl
  | cons m l ih =>
      rw [List.foldl_cons, List.filter_cons]
      by_cases h : m.Positions.isEmpty
      · rw [if_pos h, if_neg (by simp [h]), ih]
      · rw [if_neg h, if_pos (by simp [h]), List.map_cons, List.foldl_cons, ih]

/-! ## WindowsPlatformBase registry probing -/

/-- `Path.Combine` on the Windows host: joins with a backslash. -/
def pathCombine (a b : String) : String := a ++ "\\" ++ b

/-- `WindowsPlatformBase.TryReadDirRegistryKey` translated from the source:
reads `keyName\valueName` from the registry (the registry is a function from
key and value name to an optional string; a missing key or a value that is
not a string both read as `none`), returns false with a null directory when
the value is null or empty. -/
def tryReadDirRegistryKey (registry : String → String → Option String)
    (keyName valueName : String) : Bool × Option String :=
  let value := registry keyName valueName
  if value = none ∨ value = some "" then (false, none) else (true, value)

/-- The four registry locations `TryReadInstallDirRegistryKey32` probes, in
source order. -/
def installDirProbeKeys (keySuffix : String) : List String :=
  ["HKEY_CURRENT_USER\\SOFTWARE\\" ++ keySuffix,
   "HKEY_LOCAL_MACHINE\\SOFTWARE\\" ++ keySuffix,
   "HKEY_CURRENT_USER\\SOFTWARE\\Wow6432Node\\" ++ keySuffix,
   "HKEY_LOCAL_MACHINE\\SOFTWARE\\Wow6432Node\\" ++ keySuffix]

/-- `WindowsPlatformBase.TryReadInstallDirRegistryKey32` translated from the
source: tries the four roots in order and returns at the first success;
after four failures the out parameter holds the null left by the last
failing `TryReadDirRegistryKey` call. -/
def tryReadInstallDirRegistryKey32 (registry : String → String → Option String)
    (keySuffix valueName : String) : Bool × Option String :=
  match tryReadDirRegistryKey registry ("HKEY_CURRENT_USER\\SOFTWARE\\" ++ keySuffix) valueName with
  | (true, dir) => (true, dir)
  | (false, _) =>
    match tryReadDirRegistryKey registry ("HKEY_LOCAL_MACHINE\\SOFTWARE\\" ++ keySuffix) valueName with
    | (true, dir) => (true, dir)
    | (false, _) =>
      match tryReadDirRegistryKey registry ("HKEY_CURRENT_USER\\SOFTWARE\\Wow6432Node\\" ++ keySuffix) valueName with
      | (true, dir) => (true, dir)
      | (false, _) =>
        match tryReadDirRegistryKey registry ("HKEY_LOCAL_MACHINE\\SOFTWARE\\Wow6432Node\\" ++ keySuffix) valueName with
        | (true, dir) => (true, dir)
        | (false, _) => (false, none)

/-- The registry value at `keyName\valueName` when it is a non-empty string,
`none` otherwise. -/
def nonEmptyRead (registry : String → String → Option String)
    (keyName valueName : String) : Option String :=
  match registry keyName valueName with
  | none => none
  | some s => if s = "" then none else some s

/-- The first probed location holding a non-empty string, following the
claim's wording. -/
def firstNonEmptyProbe (registry : String → String → Option String)
    (keySuffix valueName : String) : Option String :=
  (installDirProbeKeys keySuffix).findSome? fun k => nonEmptyRead registry k valueName

lemma tryReadDirRegistryKey_eq (registry : String → String → Option String) (k v : String) :
    tryReadDirRegistryKey registry k v =
      match nonEmptyRead registry k v with
      | some s => (true, some s)
      | none => (false, none) := by
  unfold tryReadDirRegistryKey nonEmptyRead
  rcases h : registry k v with _ | s
  · simp
  · by_cases e : s = "" <;> simp [e]

/-! ## Claim theorems: C10 and C4 -/

/-- Claim C10: `ImportedModelData::LOD::GetBox` returns `BoundingBox::Empty`
when the LOD's mesh list is empty; otherwise it returns the bounding box of
mesh 0 merged with the bounding box of every subsequent mesh whose Positions
array is non-empty (meshes after index 0 with empty Positions contribute
nothing). -/
theorem claim10_lod_get_box :
    lodGetBox [] = BoundingBox.Empty ∧ ∀ meshes : List MeshData, lodGetBox meshes = lodGetBoxSpec meshes := by
  refine ⟨rfl, fun meshes => ?_⟩
  cases meshes with
  | nil => rfl
  | cons m0 rest => simpa [lodGetBox, lodGetBoxSpec] using lodGetBox_fold_eq rest m0.box

/-- Claim C4: `TryReadInstallDirRegistryKey32` probes exactly the four listed
registry locations in order (HKCU\SOFTWARE, HKLM\SOFTWARE,
HKCU\SOFTWARE\Wow6432Node, HKLM\SOFTWARE\Wow6432Node), returns true with the
value of the first location holding a non-empty string, and returns false
with a null directory when none of the four holds a non-empty string. -/
theorem claim4_try_read_install_dir_registry_key32
    (registry : String → String → Option String) (keySuffix valueName : String) :
    tryReadInstallDirRegistryKey32 registry keySuffix valueName =
      match firstNonEmptyProbe registry keySuffix valueName with
      | some v => (true, some v)
      | none => (false, none) := by
  simp only [tryReadInstallDirRegistryKey32, tryReadDirRegistryKey_eq, firstNonEmptyProbe,
    installDirProbeKeys, List.findSome?_cons, List.findSome?_nil]
  rcases h1 : nonEmptyRead registry ("HKEY_CURRENT_USER\\SOFTWARE\\" ++ keySuffix) valueName with _ | v1 <;>
    rcases h2 : nonEmptyRead registry ("HKEY_LOCAL_MACHINE\\SOFTWARE\\" ++ keySuffix) valueName with _ | v2 <;>
    rcases h3 : nonEmptyRead registry ("HKEY_CURRENT_USER\\SOFTWARE\\Wow6432Node\\" ++ keySuffix) valueName with _ | v3 <;>
    rcases h4 : nonEmptyRead registry ("HKEY_LOCAL_MACHINE\\SOFTWARE\\Wow6432Node\\" ++ keySuffix) valueName with _ | v4 <;>
    simp [h1, h2, h3, h4]

/-! ## Platform.GetToolchain and the WindowsPlatformBase constructor flag -/

/-- The Windows platform SDK versions enum from WindowsPlatformBase. -/
inductive WindowsPlatformSDK where
  | Latest
  | v8_1
  | v10_0_10240_0
  | v10_0_10586_0
  | v10_0_14393_0
  | v10_0_15063_0
  | v10_0_16299_0
  | v10_0_17134_0
  | v10_0_17763_0
  | v10_0_18362_0
  | v10_0_19041_0
deriving DecidableEq, Repr

/-- The Windows platform toolset versions enum from WindowsPlatformBase. -/
inductive WindowsPlatformToolset where
  | Default
  | Latest
  | v140
  | v141
  | v142
deriving DecidableEq, Repr

/-- Target architectures referenced by the build tool sources (the enum
definition itself is not under src; these are the members the sampled
sources use). -/
inductive TargetArchitecture where
  | AnyCPU
  | x86
  | x64
  | ARM64
deriving DecidableEq, Repr

/-- A build toolchain instance. `CreateToolchain` is abstract in Platform, so
an instance is modelled by its architecture plus a fresh allocation number:
two instances created by distinct `CreateToolchain` calls carry distinct
numbers, letting reference identity be read off from the value. -/
structure Toolchain where
  architecture : TargetArchitecture
  instanceId : ℕ
deriving DecidableEq, Repr

/-- The mutable state behind `Platform.GetToolchain`: the `_toolchains`
dictionary (the C# null dictionary is the empty list) and the allocation
counter for fresh toolchain instances. -/
structure ToolchainCacheState where
  toolchains : List (TargetArchitecture × Toolchain)
  nextId : ℕ
deriving DecidableEq, Repr

/-- `Platform.GetToolchain` translated from Platform.cs: throw when
`HasRequiredSDKsInstalled` is false, otherwise return the cached toolchain
for the architecture or create, cache and return a fresh one. -/
def getToolchain (hasRequiredSDKsInstalled : Bool) (st : ToolchainCacheState)
    (targetArchitecture : TargetArchitecture) : Except String (Toolchain × ToolchainCacheState) :=
  if hasRequiredSDKsInstalled = false then
    Except.error "Platform has no required SDK installed and cannot be used."
  else
    match List.lookup targetArchitecture st.toolchains with
    | some toolchain => Except.ok (toolchain, st)
    | none =>
        let toolchain : Toolchain := ⟨targetArchitecture, st.nextId⟩
        Except.ok (toolchain,
          { toolchains := st.toolchains ++ [(targetArchitecture, toolchain)], nextId := st.nextId + 1 })

/-- The `WindowsPlatformBase` constructor flag: `_hasRequiredSDKsInstalled =
sdks.Count > 0 && toolsets.Count > 0`, taking the dictionaries the two
getters return. -/
def windowsHasRequiredSDKsInstalled (sdks : List (WindowsPlatformSDK × String))
    (toolsets : List (WindowsPlatformToolset × String)) : Bool :=
  decide (0 < sdks.length) && decide (0 < toolsets.length)

lemma lookup_append_of_none {α β : Type} [BEq α] {l : List (α × β)} {l2 : List (α × β)} {a : α}
    (h : List.lookup a l = none) : List.lookup a (l ++ l2) = List.lookup a l2 := by
  induction l with
  | nil => rfl
  | cons p l ih =>
      rw [List.cons_append, List.lookup]
      rw [List.lookup] at h
      cases hb : a == p.1 with
      | true => simp [hb] at h
      | false => simp only [hb] at h ⊢; exact ih h

/-- Claim C6: `Platform.GetToolchain(targetArchitecture)` throws when
`HasRequiredSDKsInstalled` is false (and for WindowsPlatformBase that flag is
true exactly when at least one SDK and at least one toolset were found); when
the flag is true it returns a toolchain, and a second call with the same
architecture returns the identical cached Toolchain instance with the cache
state unchanged (so no new instance is created). -/
theorem claim6_get_toolchain :
    (∀ (st : ToolchainCacheState) (arch : TargetArchitecture),
        getToolchain false st arch =
          Except.error "Platform has no required SDK installed and cannot be used.") ∧
    (∀ (st : ToolchainCacheState) (arch : TargetArchitecture),
        ∃ t st2, getToolchain true st arch = Except.ok (t, st2)) ∧
    (∀ (st : ToolchainCacheState) (arch : TargetArchitecture) (t : Toolchain) (st2 : ToolchainCacheState),
        getToolchain true st arch = Except.ok (t, st2) →
          getToolchain true st2 arch = Except.ok (t, st2)) ∧
    (∀ (sdks : List (WindowsPlatformSDK × String)) (toolsets : List (WindowsPlatformToolset × String)),
        windowsHasRequiredSDKsInstalled sdks toolsets = true ↔ sdks ≠ [] ∧ toolsets ≠ []) := by
  refine ⟨fun st arch => rfl, fun st arch => ?_, fun st arch t st2 h => ?_, fun sdks toolsets => ?_⟩
  · rw [getToolchain]
    rcases hl : List.lookup arch st.toolchains with _ | t
    · exact ⟨⟨arch, st.nextId⟩,
        ⟨st.toolchains ++ [(arch, ⟨arch, st.nextId⟩)], st.nextId + 1⟩, by simp [hl]⟩
    · exact ⟨t, st, by simp [hl]⟩
  · rw [getToolchain] at h ⊢
    rcases hl : List.lookup arch st.toolchains with _ | t0 <;> rw [hl] at h <;> simp at h
    · obtain ⟨ht, hst⟩ := h
      subst ht
      subst hst
      have hlk : List.lookup arch (st.toolchains ++ [(arch, (⟨arch, st.nextId⟩ : Toolchain))]) =
          some ⟨arch, st.nextId⟩ := by
        rw [lookup_append_of_none hl, List.lookup]
        simp
      simp [hlk]
    · obtain ⟨ht, hst⟩ := h
      subst ht
      subst hst
      simp [hl]
  · constructor
    · intro h
      rw [windowsHasRequiredSDKsInstalled] at h
      simp only [Bool.and_eq_true, decide_eq_true_eq] at h
      exact ⟨List.ne_nil_of_length_pos h.1, List.ne_nil_of_length_pos h.2⟩
    · intro ⟨h1, h2⟩
      rw [windowsHasRequiredSDKsInstalled]
      simp [List.length_pos.mpr h1, List.length_pos.mpr h2]

/-- Witness for C6, exercising all four conjuncts at concrete inputs: a call
on the empty cache creates and caches instance 0 for x64, and the second call
returns that same instance with the state unchanged. -/
theorem claim6_get_toolchain_witness :
    (getToolchain false ⟨[], 0⟩ TargetArchitecture.x64 =
       Except.error "Platform has no required SDK installed and cannot be used.") ∧
    (getToolchain true
       ⟨[(TargetArchitecture.x64, ⟨TargetArchitecture.x64, 0⟩)], 1⟩ TargetArchitecture.x64 =
       Except.ok (⟨TargetArchitecture.x64, 0⟩,
         ⟨[(TargetArchitecture.x64, ⟨TargetArchitecture.x64, 0⟩)], 1⟩)) ∧
    windowsHasRequiredSDKsInstalled [(WindowsPlatformSDK.v8_1, "C:")]
      [(WindowsPlatformToolset.v142, "D:")] = true := by
  refine ⟨claim6_get_toolchain.1 ⟨[], 0⟩ TargetArchitecture.x64, ?_, ?_⟩
  · exact claim6_get_toolchain.2.2.1 ⟨[], 0⟩ TargetArchitecture.x64 ⟨TargetArchitecture.x64, 0⟩
      ⟨[(TargetArchitecture.x64, ⟨TargetArchitecture.x64, 0⟩)], 1⟩ rfl
  · exact (claim6_get_toolchain.2.2.2 _ _).mpr (by simp)

/-! ## TextureTool.Build.cs module setup -/

/-- Target platforms referenced by the sampled build sources. The enum
definition itself is not under src; `other` stands for any further member or
out-of-range value a C# enum variable can hold, which is what the switch
default branch handles. -/
inductive TargetPlatform where
  | Windows
  | UWP
  | XboxOne
  | XboxScarlett
  | Linux
  | PS4
  | Android
  | other (value : Int)
deriving DecidableEq, Repr

/-- The BuildOptions fields that TextureTool.Setup touches. -/
structure BuildOptions where
  sourcePaths : List String
  sourceFiles : List String
  privateDependencies : List String
  publicDefinitions : List String
deriving DecidableEq, Repr

/-- Outcome of running a module Setup: normal completion, or an
InvalidPlatformException; either way the options record holds the mutations
applied up to that point (C# mutates the options object in place). -/
inductive SetupOutcome where
  | ok (options : BuildOptions)
  | threwInvalidPlatform (options : BuildOptions)
deriving DecidableEq, Repr

/-- `TextureTool.Setup` translated from TextureTool.Build.cs, starting from
the options state left by `base.Setup(options)` (EngineModule is not under
src, so that state is the `options` argument): clear SourcePaths, add the two
core source files, then pick the codec by platform or throw
InvalidPlatformException in the switch default. -/
def textureToolSetup (folderPath : String) (platform : TargetPlatform)
    (options : BuildOptions) : SetupOutcome :=
  let o1 : BuildOptions :=
    { options with
      sourcePaths := [],
      sourceFiles := options.sourceFiles ++
        [pathCombine folderPath "TextureTool.cpp", pathCombine folderPath "TextureTool.h"] }
  match platform with
  | .Windows | .UWP | .XboxOne | .XboxScarlett =>
      let o2 : BuildOptions :=
        { o1 with
          privateDependencies := o1.privateDependencies ++ ["DirectXTex"],
          sourceFiles := o1.sourceFiles ++ [pathCombine folderPath "TextureTool.DirectXTex.cpp"] }
      .ok { o2 with publicDefinitions := o2.publicDefinitions ++ ["COMPILE_WITH_TEXTURE_TOOL"] }
  | .Linux | .PS4 | .Android =>
      let o2 : BuildOptions :=
        { o1 with
          privateDependencies := o1.privateDependencies ++ ["stb"],
          sourceFiles := o1.sourceFiles ++ [pathCombine folderPath "TextureTool.stb.cpp"] }
      .ok { o2 with publicDefinitions := o2.publicDefinitions ++ ["COMPILE_WITH_TEXTURE_TOOL"] }
  | _ => .threwInvalidPlatform o1

/-- The codec dependency and codec source file the claim expects per
platform, written from the claim's words; `none` means the platform is
invalid for TextureTool. -/
def expectedTextureCodec : TargetPlatform → Option (String × String)
  | .Windows | .UWP | .XboxOne | .XboxScarlett => some ("DirectXTex", "TextureTool.DirectXTex.cpp")
  | .Linux | .PS4 | .Android => some ("stb", "TextureTool.stb.cpp")
  | .other _ => none

/-- Claim C7: TextureTool.Setup adds exactly one codec dependency — DirectXTex
(with TextureTool.DirectXTex.cpp) on Windows, UWP, XboxOne and XboxScarlett,
stb (with TextureTool.stb.cpp) on Linux, PS4 and Android — and for any other
platform throws InvalidPlatformException before any codec dependency has been
added, leaving the private dependency set unchanged on error. -/
theorem claim7_texture_tool_setup (folderPath : String) (platform : TargetPlatform)
    (options : BuildOptions) :
    (∀ dep file, expectedTextureCodec platform = some (dep, file) →
      textureToolSetup folderPath platform options =
        SetupOutcome.ok
          { sourcePaths := [],
            sourceFiles := options.sourceFiles ++
              [pathCombine folderPath "TextureTool.cpp", pathCombine folderPath "TextureTool.h",
               pathCombine folderPath file],
            privateDependencies := options.privateDependencies ++ [dep],
            publicDefinitions := options.publicDefinitions ++ ["COMPILE_WITH_TEXTURE_TOOL"] }) ∧
    (expectedTextureCodec platform = none →
      textureToolSetup folderPath platform options =
        SetupOutcome.threwInvalidPlatform
          { sourcePaths := [],
            sourceFiles := options.sourceFiles ++
              [pathCombine folderPath "TextureTool.cpp", pathCombine folderPath "TextureTool.h"],
            privateDependencies := options.privateDependencies,
            publicDefinitions := options.publicDefinitions }) := by
  cases platform <;>
    refine ⟨fun dep file h => ?_, fun h => ?_⟩ <;>
      simp_all [expectedTextureCodec, textureToolSetup]

/-- Witness for C7 at concrete inputs: the Windows case adds exactly
DirectXTex, and an unlisted platform value throws with the dependency set
untouched. -/
theorem claim7_texture_tool_setup_witness :
    textureToolSetup "FP" TargetPlatform.Windows ⟨["sp"], ["f0"], ["d0"], ["def0"]⟩ =
      SetupOutcome.ok
        { sourcePaths := [],
          sourceFiles := ["f0", pathCombine "FP" "TextureTool.cpp", pathCombine "FP" "TextureTool.h",
            pathCombine "FP" "TextureTool.DirectXTex.cpp"],
          privateDependencies := ["d0", "DirectXTex"],
          publicDefinitions := ["def0", "COMPILE_WITH_TEXTURE_TOOL"] } ∧
    textureToolSetup "FP" (TargetPlatform.other 99) ⟨["sp"], ["f0"], ["d0"], ["def0"]⟩ =
      SetupOutcome.threwInvalidPlatform
        { sourcePaths := [],
          sourceFiles := ["f0", pathCombine "FP" "TextureTool.cpp", pathCombine "FP" "TextureTool.h"],
          privateDependencies := ["d0"],
          publicDefinitions := ["def0"] } :=
  ⟨by
    have h := (claim7_texture_tool_setup "FP" TargetPlatform.Windows
      ⟨["sp"], ["f0"], ["d0"], ["def0"]⟩).1 "DirectXTex" "TextureTool.DirectXTex.cpp" rfl
    simpa using h,
   by
    have h := (claim7_texture_tool_setup "FP" (TargetPlatform.other 99)
      ⟨["sp"], ["f0"], ["d0"], ["def0"]⟩).2 rfl
    simpa using h⟩

/-! ## EditorCacheModule save/load -/

/-- One item of the binary cache stream, at the granularity the
BinaryWriter/BinaryReader pair uses in EditorCacheModule: a 32-bit integer or
a (length-prefixed) string. -/
inductive StreamToken where
  | i32 (value : Int)
  | str (value : String)
deriving DecidableEq, Repr

/-- `Dictionary.Add`: fails (throws ArgumentException) when the key is
already present, otherwise appends the pair. The dictionary is modelled as
its insertion-ordered association list. -/
def dictAdd {α β : Type} [DecidableEq α] (d : List (α × β)) (k : α) (v : β) :
    Option (List (α × β)) :=
  if (List.lookup k d).isSome then none else some (d ++ [(k, v)])

/-- `BinaryReader.ReadInt32` on the token stream. -/
def readInt32 : List StreamToken → Option (Int × List StreamToken)
  | StreamToken.i32 n :: rest => some (n, rest)
  | _ => none

/-- `BinaryReader.ReadString` on the token stream. -/
def readString : List StreamToken → Option (String × List StreamToken)
  | StreamToken.str s :: rest => some (s, rest)
  | _ => none

/-- The key/value reading loop of `LoadGuarded` (versions 2 and 3): reads
`count` key/value string pairs, adding each to the dictionary. -/
def readPairs : ℕ → List (String × String) → List StreamToken →
    Option (List (String × String) × List StreamToken)
  | 0, d, s => some (d, s)
  | n + 1, d, s =>
    match readString s with
    | none => none
    | some (k, s1) =>
      match readString s1 with
      | none => none
      | some (v, s2) =>
        match dictAdd d k v with
        | none => none
        | some d2 => readPairs n d2 s2

/-- `EditorCacheModule.SaveGuarded` translated from the source: writes format
version 3, then the entry count, then each key and value of the custom-data
dictionary in enumeration order. -/
def saveGuarded (customData : List (String × String)) : List StreamToken :=
  [StreamToken.i32 3, StreamToken.i32 (customData.length : Int)] ++
    customData.flatMap fun e => [StreamToken.str e.1, StreamToken.str e.2]

/-- `EditorCacheModule.LoadGuarded` translated from the source: dispatches on
the version read from the stream; version 1 clears the dictionary, versions 2
and 3 clear it and read back `count` key/value pairs, any other version only
logs a warning and leaves the dictionary (`customData`, the state before the
call) unchanged. A failed token read or a duplicate key models the thrown
exception as `none`. -/
def loadGuarded (customData : List (String × String)) (stream : List StreamToken) :
    Option (List (String × String)) :=
  match readInt32 stream with
  | none => none
  | some (version, s1) =>
    if version = 1 then some []
    else if version = 2 then
      match readInt32 s1 with
      | none => none
      | some (count, s2) => (readPairs count.toNat [] s2).map Prod.fst
    else if version = 3 then
      match readInt32 s1 with
      | none => none
      | some (count, s2) => (readPairs count.toNat [] s2).map Prod.fst
    else some customData

lemma readPairs_save (d : List (String × String)) :
    ∀ (acc : List (String × String)) (rest : List StreamToken),
      (∀ k, k ∈ d.map Prod.fst → List.lookup k acc = none) →
      (d.map Prod.fst).Nodup →
      readPairs d.length acc ((d.flatMap fun e => [StreamToken.str e.1, StreamToken.str e.2]) ++ rest) =
        some (acc ++ d, rest) := by
  induction d with
  | nil => intro acc rest _ _; simp [readPairs]
  | cons e d ih =>
      intro acc rest hacc hnd
      obtain ⟨k, v⟩ := e
      have hk : List.lookup k acc = none := hacc k (by simp)
      have hstep : dictAdd acc k v = some (acc ++ [(k, v)]) := by
        rw [dictAdd, if_neg]
        simp [hk]
      simp only [List.length_cons, List.flatMap_cons, List.cons_append, List.append_assoc]
      rw [readPairs]
      simp only [readString, hstep]
      have hacc2 : ∀ q, q ∈ d.map Prod.fst → List.lookup q (acc ++ [(k, v)]) = none := by
        intro q hq
        have hq1 : List.lookup q acc = none := hacc q (by simp [hq])
        have hqk : q ≠ k := by
          intro hcontra
          subst hcontra
          exact (List.nodup_cons.mp (by simpa using hnd)).1 hq
        rw [lookup_append_of_none hq1, List.lookup, beq_eq_false_iff_ne.mpr hqk]
        rfl
      have hnd2 : (d.map Prod.fst).Nodup := (List.nodup_cons.mp (by simpa using hnd)).2
      have := ih (acc ++ [(k, v)]) rest hacc2 hnd2
      simpa [List.append_assoc] using this

/-- Claim C9: the editor cache save/load pair round-trips: `SaveGuarded`
writes format version 3, the count and the key/value string pairs, and
`LoadGuarded` applied to a stream written by `SaveGuarded` restores the
dictionary exactly, so every key reads back the value stored before the
save. -/
theorem claim9_editor_cache_roundtrip (prior customData : List (String × String))
    (h : (customData.map Prod.fst).Nodup) :
    ∃ restored, loadGuarded prior (saveGuarded customData) = some restored ∧
      restored = customData ∧ ∀ k, List.lookup k restored = List.lookup k customData := by
  refine ⟨customData, ?_, rfl, fun _ => rfl⟩
  rw [saveGuarded, loadGuarded]
  simp only [List.cons_append, List.nil_append, readInt32]
  norm_num
  have hrp := readPairs_save customData [] [] (by intro k _; rfl) h
  rw [List.append_nil] at hrp
  simp [Int.toNat_natCast, hrp]

/-- Witness for C9 at a concrete dictionary with two distinct keys and a
non-empty prior dictionary. -/
theorem claim9_editor_cache_roundtrip_witness :
    ∃ restored, loadGuarded [("z", "0")] (saveGuarded [("a", "1"), ("b", "2")]) = some restored ∧
      restored = [("a", "1"), ("b", "2")] ∧
      ∀ k, List.lookup k restored = List.lookup k [("a", "1"), ("b", "2")] :=
  claim9_editor_cache_roundtrip [("z", "0")] [("a", "1"), ("b", "2")] (by decide)

/-! ## WindowsPlatformBase.GetSDKs -/

/-- A System.Version value: four components, -1 for a missing component
(`new Version(8, 1)` has build = revision = -1). -/
structure NetVersion where
  major : Int
  minor : Int
  build : Int
  revision : Int
deriving DecidableEq, Repr

/-- `WindowsPlatformBase.GetSDKVersion` translated from the source; the
`default` arm throws ArgumentOutOfRangeException, modelled as `none`. -/
def getSDKVersion : WindowsPlatformSDK → Option NetVersion
  | .Latest => none
  | .v8_1 => some ⟨8, 1, -1, -1⟩
  | .v10_0_10240_0 => some ⟨10, 0, 10240, 0⟩
  | .v10_0_10586_0 => some ⟨10, 0, 10586, 0⟩
  | .v10_0_14393_0 => some ⟨10, 0, 14393, 0⟩
  | .v10_0_15063_0 => some ⟨10, 0, 15063, 0⟩
  | .v10_0_16299_0 => some ⟨10, 0, 16299, 0⟩
  | .v10_0_17134_0 => some ⟨10, 0, 17134, 0⟩
  | .v10_0_17763_0 => some ⟨10, 0, 17763, 0⟩
  | .v10_0_18362_0 => some ⟨10, 0, 18362, 0⟩
  | .v10_0_19041_0 => some ⟨10, 0, 19041, 0⟩

/-- The host environment `GetSDKs` probes: the registry, the filesystem, and
`System.Version.TryParse` (a .NET library routine, not repository code, so it
is part of the environment). `getDirectoryNames p` lists the names of the
child directories of `p` (`Path.GetFileName` of each
`Directory.GetDirectories` result). -/
structure WinEnv where
  registry : String → String → Option String
  fileExists : String → Bool
  directoryExists : String → Bool
  getDirectoryNames : String → List String
  parseVersion : String → Option NetVersion

/-- The if/else-if chain of `GetSDKs` over a parsed Windows 10 include
directory version: the matching enum member among the nine, `none` when the
version is unknown (the source then only logs a warning). -/
def sdk10Match (version : NetVersion) : Option WindowsPlatformSDK :=
  if getSDKVersion .v10_0_10240_0 = some version then some .v10_0_10240_0
  else if getSDKVersion .v10_0_10586_0 = some version then some .v10_0_10586_0
  else if getSDKVersion .v10_0_14393_0 = some version then some .v10_0_14393_0
  else if getSDKVersion .v10_0_15063_0 = some version then some .v10_0_15063_0
  else if getSDKVersion .v10_0_16299_0 = some version then some .v10_0_16299_0
  else if getSDKVersion .v10_0_17134_0 = some version then some .v10_0_17134_0
  else if getSDKVersion .v10_0_17763_0 = some version then some .v10_0_17763_0
  else if getSDKVersion .v10_0_18362_0 = some version then some .v10_0_18362_0
  else if getSDKVersion .v10_0_19041_0 = some version then some .v10_0_19041_0
  else none

/-- The Windows 8.1 SDK entries of `GetSDKs`: registered when the registry
probe succeeds and the installation folder contains Include\um\windows.h
(adding to the still-empty dictionary cannot fail). -/
def sdk81Entries (env : WinEnv) : List (WindowsPlatformSDK × String) :=
  match tryReadInstallDirRegistryKey32 env.registry "Microsoft\\Microsoft SDKs\\Windows\\v8.1" "InstallationFolder" with
  | (true, some sdk81) =>
      if env.fileExists (pathCombine (pathCombine (pathCombine sdk81 "Include") "um") "windows.h") then
        [(WindowsPlatformSDK.v8_1, sdk81)]
      else []
  | _ => []

/-- The Windows 10 SDK root set of `GetSDKs`: a HashSet fed by the two
registry probes. With at most two insertions and no removals the set
enumerates its distinct elements in insertion order, which `dedup` of the
two-probe list realizes. -/
def sdk10RootProbes (env : WinEnv) : List String :=
  let l1 : List String :=
    match tryReadInstallDirRegistryKey32 env.registry "Microsoft\\Windows Kits\\Installed Roots" "KitsRoot10" with
    | (true, some rootDir) => [rootDir]
    | _ => []
  let l2 : List String :=
    match tryReadInstallDirRegistryKey32 env.registry "Microsoft\\Microsoft SDKs\\Windows\\v10.0" "InstallationFolder" with
    | (true, some rootDir) => [rootDir]
    | _ => []
  (l1 ++ l2).dedup

/-- The body of the inner `foreach (var includeDir in GetDirectories(...))`
loop of `GetSDKs`: the dictionary entry it adds for one include directory
name, or `none` when it adds nothing (name does not parse as a Version,
um\windows.h is missing, or the version is unknown and only a warning is
logged). -/
def sdk10EntryForDir (env : WinEnv) (root name : String) : Option (WindowsPlatformSDK × String) :=
  match env.parseVersion name with
  | none => none
  | some version =>
    if env.fileExists (pathCombine (pathCombine (pathCombine (pathCombine root "Include") name) "um") "windows.h") then
      (sdk10Match version).map fun e => (e, root)
    else none

/-- The inner loop of `GetSDKs` over the include directory names of one
root, threading the dictionary through `Dictionary.Add` (which fails on a
duplicate key). -/
def sdk10AddDirs (env : WinEnv) (root : String) :
    List String → List (WindowsPlatformSDK × String) → Option (List (WindowsPlatformSDK × String))
  | [], d => some d
  | name :: names, d =>
    match sdk10EntryForDir env root name with
    | none => sdk10AddDirs env root names d
    | some (e, r) =>
      match dictAdd d e r with
      | none => none
      | some d2 => sdk10AddDirs env root names d2

/-- The outer loop of `GetSDKs` over the Windows 10 SDK roots; a root whose
Include directory does not exist contributes nothing. -/
def sdk10AddRoots (env : WinEnv) :
    List String → List (WindowsPlatformSDK × String) → Option (List (WindowsPlatformSDK × String))
  | [], d => some d
  | root :: roots, d =>
    if env.directoryExists (pathCombine root "Include") then
      match sdk10AddDirs env root (env.getDirectoryNames (pathCombine root "Include")) d with
      | none => none
      | some d2 => sdk10AddRoots env roots d2
    else sdk10AddRoots env roots d

/-- The dictionary-building computation of `GetSDKs` (the body guarded by
the `_sdks != null` cache check); `none` models a thrown exception
(duplicate `Dictionary.Add`). -/
def getSDKsCompute (env : WinEnv) : Option (List (WindowsPlatformSDK × String)) :=
  sdk10AddRoots env (sdk10RootProbes env) (sdk81Entries env)

/-- `GetSDKs` with its `_sdks` cache field: a non-null cache is returned
unchanged, otherwise the dictionary is computed and cached. -/
def getSDKsCached (cache : Option (List (WindowsPlatformSDK × String))) (env : WinEnv) :
    Option (List (WindowsPlatformSDK × String) × Option (List (WindowsPlatformSDK × String))) :=
  match cache with
  | some d => some (d, some d)
  | none => (getSDKsCompute env).map fun d => (d, some d)

/-- The list of Windows 10 SDK entries `GetSDKs` registers, written out as a
direct comprehension over roots and include directory names. -/
def sdk10SpecEntries (env : WinEnv) : List (WindowsPlatformSDK × String) :=
  (sdk10RootProbes env).flatMap fun root =>
    if env.directoryExists (pathCombine root "Include") then
      (env.getDirectoryNames (pathCombine root "Include")).filterMap (sdk10EntryForDir env root)
    else []


lemma dictAdd_eq_some {α β : Type} [DecidableEq α] {d : List (α × β)} {k : α} {v : β}
    {d2 : List (α × β)} (h : dictAdd d k v = some d2) :
    d2 = d ++ [(k, v)] ∧ List.lookup k d = none := by
  rw [dictAdd] at h
  by_cases hl : (List.lookup k d).isSome
  · rw [if_pos hl] at h; exact absurd h (by simp)
  · rw [if_neg hl] at h
    injection h with h0
    exact ⟨h0.symm, Option.not_isSome_iff_eq_none.mp hl⟩

lemma sdk10Match_eq_some {version : NetVersion} {e : WindowsPlatformSDK}
    (h : sdk10Match version = some e) :
    getSDKVersion e = some version ∧ e ≠ WindowsPlatformSDK.Latest ∧ e ≠ WindowsPlatformSDK.v8_1 := by
  rw [sdk10Match] at h
  split_ifs at h with h1 h2 h3 h4 h5 h6 h7 h8 h9
  all_goals injection h with h0
  all_goals subst h0
  all_goals exact ⟨by assumption, by decide, by decide⟩

lemma sdk10Match_of_version {version : NetVersion} {e : WindowsPlatformSDK}
    (hv : getSDKVersion e = some version) (h1 : e ≠ WindowsPlatformSDK.Latest)
    (h2 : e ≠ WindowsPlatformSDK.v8_1) : sdk10Match version = some e := by
  cases e
  · exact absurd rfl h1
  · exact absurd rfl h2
  all_goals
    simp only [getSDKVersion] at hv
    injection hv with hv0
    subst hv0
    decide

lemma sdk10EntryForDir_eq_some (env : WinEnv) (root name : String)
    (e : WindowsPlatformSDK) (r : String) :
    sdk10EntryForDir env root name = some (e, r) ↔
      r = root ∧ env.parseVersion name = getSDKVersion e ∧
      e ≠ WindowsPlatformSDK.Latest ∧ e ≠ WindowsPlatformSDK.v8_1 ∧
      env.fileExists (pathCombine (pathCombine (pathCombine (pathCombine root "Include") name) "um") "windows.h") = true := by
  rw [sdk10EntryForDir]
  rcases hp : env.parseVersion name with _ | version
  · dsimp only
    constructor
    · intro h; exact absurd h (by simp)
    · rintro ⟨rfl, h2, h3, h4, h5⟩
      cases e
      · exact absurd rfl h3
      · exact absurd rfl h4
      all_goals simp [getSDKVersion] at h2
  · dsimp only
    by_cases hf : env.fileExists (pathCombine (pathCombine (pathCombine (pathCombine root "Include") name) "um") "windows.h") = true
    · rw [if_pos hf]
      constructor
      · intro h
        rw [Option.map_eq_some'] at h
        obtain ⟨e2, he2, heq⟩ := h
        injection heq with ha hb
        subst ha
        subst hb
        obtain ⟨hv, h3, h4⟩ := sdk10Match_eq_some he2
        exact ⟨rfl, hv.symm, h3, h4, hf⟩
      · rintro ⟨rfl, h2, h3, h4, _⟩
        rw [sdk10Match_of_version h2.symm h3 h4]
        rfl
    · rw [if_neg hf]
      constructor
      · intro h; exact absurd h (by simp)
      · rintro ⟨rfl, _, _, _, h5⟩
        exact absurd h5 hf

lemma sdk10AddDirs_eq (env : WinEnv) (root : String) :
    ∀ (names : List String) (d res : List (WindowsPlatformSDK × String)),
      sdk10AddDirs env root names d = some res →
      res = d ++ names.filterMap (sdk10EntryForDir env root) := by
  intro names
  induction names with
  | nil =>
      intro d res h
      simp only [sdk10AddDirs] at h
      injection h with h0
      simp [h0]
  | cons name names ih =>
      intro d res h
      simp only [sdk10AddDirs] at h
      rcases he : sdk10EntryForDir env root name with _ | er
      · rw [he] at h
        dsimp only at h
        rw [List.filterMap_cons_none he]
        exact ih d res h
      · obtain ⟨e, r⟩ := er
        rw [he] at h
        dsimp only at h
        rcases hd : dictAdd d e r with _ | d2
        · rw [hd] at h
          exact absurd h (by simp)
        · rw [hd] at h
          dsimp only at h
          have hstep := (dictAdd_eq_some hd).1
          have hres := ih d2 res h
          rw [List.filterMap_cons_some he, hres, hstep, List.append_assoc]
          rfl

lemma sdk10AddRoots_eq (env : WinEnv) :
    ∀ (roots : List String) (d res : List (WindowsPlatformSDK × String)),
      sdk10AddRoots env roots d = some res →
      res = d ++ roots.flatMap fun root =>
        if env.directoryExists (pathCombine root "Include") then
          (env.getDirectoryNames (pathCombine root "Include")).filterMap (sdk10EntryForDir env root)
        else [] := by
  intro roots
  induction roots with
  | nil =>
      intro d res h
      simp only [sdk10AddRoots] at h
      injection h with h0
      simp [h0]
  | cons root roots ih =>
      intro d res h
      simp only [sdk10AddRoots] at h
      rw [List.flatMap_cons]
      by_cases hdir : env.directoryExists (pathCombine root "Include") = true
      · rw [if_pos hdir] at h ⊢
        rcases hd : sdk10AddDirs env root (env.getDirectoryNames (pathCombine root "Include")) d with _ | d2
        · rw [hd] at h
          exact absurd h (by simp)
        · rw [hd] at h
          dsimp only at h
          have hstep := sdk10AddDirs_eq env root _ d d2 hd
          have hres := ih d2 res h
          rw [hres, hstep, List.append_assoc]
      · rw [if_neg hdir] at h ⊢
        rw [List.nil_append]
        exact ih d res h

lemma getSDKsCompute_eq (env : WinEnv) (d : List (WindowsPlatformSDK × String))
    (h : getSDKsCompute env = some d) :
    d = sdk81Entries env ++ sdk10SpecEntries env := by
  rw [getSDKsCompute] at h
  rw [sdk10SpecEntries]
  exact sdk10AddRoots_eq env _ _ _ h

lemma mem_sdk10SpecEntries (env : WinEnv) (e : WindowsPlatformSDK) (r : String) :
    (e, r) ∈ sdk10SpecEntries env ↔
      r ∈ sdk10RootProbes env ∧ env.directoryExists (pathCombine r "Include") = true ∧
      ∃ name ∈ env.getDirectoryNames (pathCombine r "Include"),
        sdk10EntryForDir env r name = some (e, r) := by
  rw [sdk10SpecEntries, List.mem_flatMap]
  constructor
  · rintro ⟨root, hroot, hmem⟩
    by_cases hdir : env.directoryExists (pathCombine root "Include") = true
    · rw [if_pos hdir] at hmem
      rw [List.mem_filterMap] at hmem
      obtain ⟨name, hname, hentry⟩ := hmem
      have hr : r = root := ((sdk10EntryForDir_eq_some env root name e r).mp hentry).1
      subst hr
      exact ⟨hroot, hdir, name, hname, hentry⟩
    · rw [if_neg hdir] at hmem
      exact absurd hmem (List.not_mem_nil _)
  · rintro ⟨hroot, hdir, name, hname, hentry⟩
    refine ⟨r, hroot, ?_⟩
    rw [if_pos hdir, List.mem_filterMap]
    exact ⟨name, hname, hentry⟩

lemma mem_sdk81Entries (env : WinEnv) (e : WindowsPlatformSDK) (r : String) :
    (e, r) ∈ sdk81Entries env ↔
      e = WindowsPlatformSDK.v8_1 ∧
      tryReadInstallDirRegistryKey32 env.registry "Microsoft\\Microsoft SDKs\\Windows\\v8.1" "InstallationFolder" = (true, some r) ∧
      env.fileExists (pathCombine (pathCombine (pathCombine r "Include") "um") "windows.h") = true := by
  rw [sdk81Entries]
  rcases hp : tryReadInstallDirRegistryKey32 env.registry "Microsoft\\Microsoft SDKs\\Windows\\v8.1" "InstallationFolder" with ⟨b, o⟩
  match b, o with
  | true, some sdk81 =>
      dsimp only
      by_cases hf : env.fileExists (pathCombine (pathCombine (pathCombine sdk81 "Include") "um") "windows.h") = true
      · rw [if_pos hf]
        constructor
        · intro h
          rw [List.mem_singleton] at h
          injection h with ha hb
          subst ha
          subst hb
          exact ⟨rfl, rfl, hf⟩
        · rintro ⟨rfl, heq, hfile⟩
          injection heq with _ hb
          injection hb with hc
          subst hc
          exact List.mem_singleton.mpr rfl
      · rw [if_neg hf]
        constructor
        · intro h; exact absurd h (List.not_mem_nil _)
        · rintro ⟨rfl, heq, hfile⟩
          injection heq with _ hb
          injection hb with hc
          subst hc
          exact absurd hfile hf
  | true, none =>
      dsimp only
      constructor
      · intro h; exact absurd h (List.not_mem_nil _)
      · rintro ⟨rfl, heq, _⟩
        injection heq with _ hb
        injection hb
  | false, o =>
      dsimp only
      constructor
      · intro h; exact absurd h (List.not_mem_nil _)
      · rintro ⟨rfl, heq, _⟩
        injection heq with ha _
        injection ha

/-- Claim C5: when the `GetSDKs` computation completes with dictionary `d`:
the Windows 8.1 SDK is registered exactly when its registry-located
installation folder contains Include\um\windows.h; a Windows 10 SDK member is
registered for root `r` exactly when `r` is a probed kit root whose Include
directory exists and holds a child directory whose name parses as exactly
that member's version (one of the nine enumerated ones) and which contains
um\windows.h — so a parseable include directory with any other version is
never added (it is only warned about), and no pseudo-member (Latest) is ever
registered; and every call after the first returns the dictionary cached by
the first call. -/
theorem claim5_get_sdks (env : WinEnv) (d : List (WindowsPlatformSDK × String))
    (h : getSDKsCompute env = some d) :
    (∀ r, (WindowsPlatformSDK.v8_1, r) ∈ d ↔
        tryReadInstallDirRegistryKey32 env.registry "Microsoft\\Microsoft SDKs\\Windows\\v8.1" "InstallationFolder" = (true, some r) ∧
        env.fileExists (pathCombine (pathCombine (pathCombine r "Include") "um") "windows.h") = true) ∧
    (∀ (e : WindowsPlatformSDK) (r : String),
        e ≠ WindowsPlatformSDK.Latest → e ≠ WindowsPlatformSDK.v8_1 →
        ((e, r) ∈ d ↔
          r ∈ sdk10RootProbes env ∧ env.directoryExists (pathCombine r "Include") = true ∧
          ∃ name ∈ env.getDirectoryNames (pathCombine r "Include"),
            env.parseVersion name = getSDKVersion e ∧
            env.fileExists (pathCombine (pathCombine (pathCombine (pathCombine r "Include") name) "um") "windows.h") = true)) ∧
    (∀ r, (WindowsPlatformSDK.Latest, r) ∉ d) ∧
    (getSDKsCached none env = some (d, some d) ∧
      ∀ env2, getSDKsCached (some d) env2 = some (d, some d)) := by
  have hd := getSDKsCompute_eq env d h
  subst hd
  refine ⟨fun r => ?_, fun e r he1 he2 => ?_, fun r => ?_, ?_, fun env2 => rfl⟩
  · rw [List.mem_append, mem_sdk81Entries, mem_sdk10SpecEntries]
    constructor
    · rintro (⟨_, hreg, hfile⟩ | hmem)
      · exact ⟨hreg, hfile⟩
      · obtain ⟨_, _, name, _, hentry⟩ := hmem
        exact absurd rfl ((sdk10EntryForDir_eq_some env r name _ r).mp hentry).2.2.2.1
    · rintro ⟨hreg, hfile⟩
      exact Or.inl ⟨rfl, hreg, hfile⟩
  · rw [List.mem_append, mem_sdk81Entries, mem_sdk10SpecEntries]
    constructor
    · rintro (⟨he, _, _⟩ | ⟨hroot, hdir, name, hname, hentry⟩)
      · exact absurd he he2
      · obtain ⟨_, hver, _, _, hfile⟩ := (sdk10EntryForDir_eq_some env r name e r).mp hentry
        exact ⟨hroot, hdir, name, hname, hver, hfile⟩
    · rintro ⟨hroot, hdir, name, hname, hver, hfile⟩
      exact Or.inr ⟨hroot, hdir, name, hname,
        (sdk10EntryForDir_eq_some env r name e r).mpr ⟨rfl, hver, he1, he2, hfile⟩⟩
  · intro hmem
    rw [List.mem_append] at hmem
    rcases hmem with h81 | h10
    · exact absurd ((mem_sdk81Entries env _ r).mp h81).1 (by decide)
    · obtain ⟨_, _, name, _, hentry⟩ := (mem_sdk10SpecEntries env _ r).mp h10
      exact absurd rfl ((sdk10EntryForDir_eq_some env r name _ r).mp hentry).2.2.1
  · simp only [getSDKsCached]
    rw [h]
    rfl

/-- A host environment with an empty registry and filesystem: every probe
fails and `GetSDKs` finds nothing. -/
def winEnvEmpty : WinEnv :=
  ⟨fun _ _ => none, fun _ => false, fun _ => false, fun _ => [], fun _ => none⟩

/-- Witness for C5 on the empty environment: the computation succeeds with
the empty dictionary, and the cached getter behaviour from the claim theorem
holds there. -/
theorem claim5_get_sdks_witness :
    getSDKsCompute winEnvEmpty = some [] ∧
    (getSDKsCached none winEnvEmpty = some ([], some []) ∧
      ∀ env2, getSDKsCached (some []) env2 = some ([], some [])) ∧
    ∀ r, (WindowsPlatformSDK.Latest, r) ∉ ([] : List (WindowsPlatformSDK × String)) :=
  ⟨rfl, (claim5_get_sdks winEnvEmpty [] rfl).2.2.2, (claim5_get_sdks winEnvEmpty [] rfl).2.2.1⟩

/-! ## Volumetric fog: temporal reprojection history discard (CS_LightScattering / PS_InjectLight) -/

/-- A 3-component vector of shader scalars, modelled over the rationals for
the purely algebraic reprojection logic. -/
abbrev QVec3 : Type := ℚ × ℚ × ℚ

/-- A float4 value as stored in the fog volume textures. -/
abbrev QVec4 : Type := Fin 4 → ℚ

/-- The history weight after the out-of-view test shared verbatim by
CS_LightScattering and PS_InjectLight (USE_TEMPORAL_REPROJECTION=1):
`historyAlpha = HistoryWeight` and it is forced to 0 when
`any(historyUV < 0) || any(historyUV > 1)`. -/
def volumetricHistoryAlpha (historyUV : QVec3) (historyWeight : ℚ) : ℚ :=
  if historyUV.1 < 0 ∨ historyUV.2.1 < 0 ∨ historyUV.2.2 < 0 ∨
     1 < historyUV.1 ∨ 1 < historyUV.2.1 ∨ 1 < historyUV.2.2 then 0
  else historyWeight

/-- `all(gridCoordinate < GridSizeInt)`: componentwise strict comparison of
the thread's grid coordinate against the grid size. -/
def allLtGrid (gridCoordinate gridSizeInt : Fin 3 → ℕ) : Bool :=
  decide (∀ i, gridCoordinate i < gridSizeInt i)

/-- The supersample count of CS_LightScattering:
`historyAlpha < 0.001f && all(gridCoordinate < GridSizeInt) ?
HistoryMissSuperSampleCount : 1`. -/
def csNumSuperSamples (historyUV : QVec3) (historyWeight : ℚ)
    (gridCoordinate gridSizeInt : Fin 3 → ℕ) (historyMissSuperSampleCount : ℕ) : ℕ :=
  if volumetricHistoryAlpha historyUV historyWeight < 1 / 1000 ∧ allLtGrid gridCoordinate gridSizeInt = true then
    historyMissSuperSampleCount
  else 1

/-- HLSL `lerp(x, y, s) = x + s * (y - x)`, componentwise. -/
def lerp4 (x y : QVec4) (s : ℚ) : QVec4 := fun c => x c + s * (y c - x c)

/-- The history blend at the end of CS_LightScattering: the sampled history
is blended in only under `BRANCH if (historyAlpha > 0)`. -/
def csApplyHistory (scatteringAndExtinction historySample : QVec4)
    (historyUV : QVec3) (historyWeight : ℚ) : QVec4 :=
  if 0 < volumetricHistoryAlpha historyUV historyWeight then
    lerp4 scatteringAndExtinction historySample (volumetricHistoryAlpha historyUV historyWeight)
  else scatteringAndExtinction

/-- The supersample count of PS_InjectLight:
`historyAlpha < .001f ? HistoryMissSuperSampleCount : 1`. -/
def psNumSuperSamples (historyUV : QVec3) (historyWeight : ℚ)
    (historyMissSuperSampleCount : ℕ) : ℕ :=
  if volumetricHistoryAlpha historyUV historyWeight < 1 / 1000 then
    historyMissSuperSampleCount
  else 1

/-- How many scattering samples the PS_InjectLight invocation takes: the
early `return 0` for `!all(gridCoordinate < GridSizeInt)` runs the sampling
loop zero times; inside the grid the loop runs `numSuperSamples` times. -/
def psInjectLightSampleCount (gridCoordinate gridSizeInt : Fin 3 → ℕ)
    (historyUV : QVec3) (historyWeight : ℚ) (historyMissSuperSampleCount : ℕ) : ℕ :=
  if allLtGrid gridCoordinate gridSizeInt = true then
    psNumSuperSamples historyUV historyWeight historyMissSuperSampleCount
  else 0

/-- Claim C3: in CS_LightScattering and PS_InjectLight with temporal
reprojection, whenever any component of the reprojected history UV is below
0 or above 1, the history weight is forced to 0, so no history is blended
into the result (the scattering value passes through unchanged), and the
pass takes HistoryMissSuperSampleCount jittered samples instead of 1 for
voxels inside the grid. -/
theorem claim3_temporal_reprojection_history_discard
    (historyUV : QVec3) (historyWeight : ℚ) (scatteringAndExtinction historySample : QVec4)
    (gridCoordinate gridSizeInt : Fin 3 → ℕ) (historyMissSuperSampleCount : ℕ)
    (h : historyUV.1 < 0 ∨ historyUV.2.1 < 0 ∨ historyUV.2.2 < 0 ∨
         1 < historyUV.1 ∨ 1 < historyUV.2.1 ∨ 1 < historyUV.2.2) :
    volumetricHistoryAlpha historyUV historyWeight = 0 ∧
    csApplyHistory scatteringAndExtinction historySample historyUV historyWeight =
      scatteringAndExtinction ∧
    (allLtGrid gridCoordinate gridSizeInt = true →
      csNumSuperSamples historyUV historyWeight gridCoordinate gridSizeInt
        historyMissSuperSampleCount = historyMissSuperSampleCount) ∧
    (allLtGrid gridCoordinate gridSizeInt = true →
      psInjectLightSampleCount gridCoordinate gridSizeInt historyUV historyWeight
        historyMissSuperSampleCount = historyMissSuperSampleCount) := by
  have ha : volumetricHistoryAlpha historyUV historyWeight = 0 := by
    rw [volumetricHistoryAlpha, if_pos h]
  refine ⟨ha, ?_, fun hg => ?_, fun hg => ?_⟩
  · rw [csApplyHistory, if_neg]
    rw [ha]
    exact lt_irrefl 0
  · rw [csNumSuperSamples, if_pos]
    exact ⟨by rw [ha]; norm_num, hg⟩
  · rw [psInjectLightSampleCount, if_pos hg, psNumSuperSamples, if_pos]
    rw [ha]
    norm_num

/-- Witness for C3 at a concrete out-of-view history UV, a positive history
weight, an in-grid coordinate, and supersample count 4. -/
theorem claim3_temporal_reprojection_history_discard_witness :
    volumetricHistoryAlpha (-1, 1/2, 1/2) (9/10) = 0 ∧
    csApplyHistory (fun _ => 3) (fun _ => 7) (-1, 1/2, 1/2) (9/10) = (fun _ => 3) ∧
    (allLtGrid (fun _ => 0) (fun _ => 8) = true →
      csNumSuperSamples (-1, 1/2, 1/2) (9/10) (fun _ => 0) (fun _ => 8) 4 = 4) ∧
    (allLtGrid (fun _ => 0) (fun _ => 8) = true →
      psInjectLightSampleCount (fun _ => 0) (fun _ => 8) (-1, 1/2, 1/2) (9/10) 4 = 4) :=
  claim3_temporal_reprojection_history_discard (-1, 1/2, 1/2) (9/10) (fun _ => 3) (fun _ => 7)
    (fun _ => 0) (fun _ => 8) 4 (Or.inl (by norm_num))

/-! ## Volumetric fog: CS_LightScattering store safety -/

/-- A shader float at the granularity the NaN/infinity guard observes: a
finite value (its magnitude modelled as a rational) or one of the
non-finite classes. -/
inductive FVal where
  | fin (x : ℚ)
  | nan
  | pinf
  | ninf
deriving DecidableEq, Repr

/-- `isnan(v) || isinf(v)` for one component. -/
def isNanOrInf : FVal → Bool
  | .fin _ => false
  | _ => true

/-- One component of
`scatteringAndExtinction = isnan(...) || isinf(...) ? 0 : scatteringAndExtinction`
(the HLSL ternary on a bool4 condition selects per component). -/
def sanitizeFVal (v : FVal) : FVal :=
  if isNanOrInf v then .fin 0 else v

/-- HLSL `max` on shader floats: the larger operand; when one operand is NaN
the other is returned; infinities compare in the usual order. Only finite
operands reach it on the claim's code path (the ternary above runs first). -/
def hlslMax : FVal → FVal → FVal
  | .fin a, .fin b => .fin (max a b)
  | .nan, b => b
  | a, .nan => a
  | .pinf, _ => .pinf
  | _, .pinf => .pinf
  | .ninf, b => b
  | a, .ninf => a

/-- The guarded store at the end of CS_LightScattering: only threads with
`all(gridCoordinate < GridSizeInt)` write, and they write
`max(scatteringAndExtinction, 0)` of the sanitized value. `none` means no
store into RWLightScattering happened for this thread. -/
def csLightScatteringStore (gridCoordinate gridSizeInt : Fin 3 → ℕ)
    (scatteringAndExtinction : Fin 4 → FVal) : Option (Fin 4 → FVal) :=
  if allLtGrid gridCoordinate gridSizeInt = true then
    some fun c => hlslMax (sanitizeFVal (scatteringAndExtinction c)) (.fin 0)
  else none

/-- A component that is finite and non-negative. -/
def finiteNonneg : FVal → Bool
  | .fin x => decide (0 ≤ x)
  | _ => false

/-- Claim C8: every value CS_LightScattering writes to RWLightScattering is
componentwise non-negative and finite: components that are NaN or infinite
are replaced by zero, the result is clamped with max(·, 0) before the store,
and a store happens only when every component of the thread's grid
coordinate is strictly below the corresponding component of GridSizeInt. -/
theorem claim8_cs_light_scattering_store_safety
    (gridCoordinate gridSizeInt : Fin 3 → ℕ) (scatteringAndExtinction : Fin 4 → FVal) :
    ((csLightScatteringStore gridCoordinate gridSizeInt scatteringAndExtinction).isSome =
      allLtGrid gridCoordinate gridSizeInt) ∧
    (∀ written, csLightScatteringStore gridCoordinate gridSizeInt scatteringAndExtinction =
        some written → ∀ c, finiteNonneg (written c) = true) ∧
    (∀ c, isNanOrInf (scatteringAndExtinction c) = true →
      sanitizeFVal (scatteringAndExtinction c) = .fin 0) := by
  refine ⟨?_, fun written hw c => ?_, fun c hc => ?_⟩
  · rw [csLightScatteringStore]
    cases hg : allLtGrid gridCoordinate gridSizeInt <;> simp
  · rw [csLightScatteringStore] at hw
    cases hg : allLtGrid gridCoordinate gridSizeInt
    · rw [hg] at hw
      simp at hw
    · rw [hg] at hw
      rw [if_pos rfl] at hw
      injection hw with hw0
      rw [← hw0]
      show finiteNonneg (hlslMax (sanitizeFVal (scatteringAndExtinction c)) (FVal.fin 0)) = true
      cases scatteringAndExtinction c with
      | fin x =>
          simp only [sanitizeFVal, isNanOrInf, Bool.false_eq_true, if_false, hlslMax,
            finiteNonneg, decide_eq_true_eq]
          exact le_max_right x 0
      | nan => rfl
      | pinf => rfl
      | ninf => rfl
  · rw [sanitizeFVal, if_pos hc]

/-- Witness for C8 at a concrete in-grid coordinate and an all-NaN input:
the store happens and the written value is finite and non-negative in every
component. -/
theorem claim8_cs_light_scattering_store_safety_witness :
    ((csLightScatteringStore (fun _ => 0) (fun _ => 4) (fun _ => FVal.nan)).isSome =
      allLtGrid (fun _ => 0) (fun _ => 4)) ∧
    (∀ written, csLightScatteringStore (fun _ => 0) (fun _ => 4) (fun _ => FVal.nan) =
        some written → ∀ c, finiteNonneg (written c) = true) ∧
    (∀ c : Fin 4, isNanOrInf ((fun _ => FVal.nan) c) = true →
      sanitizeFVal ((fun _ => FVal.nan) c) = .fin 0) :=
  claim8_cs_light_scattering_store_safety (fun _ => 0) (fun _ => 4) (fun _ => FVal.nan)

/-! ## Volumetric fog: CS_FinalIntegration -/

/-- A world-space float3, over the reals (the integration uses exp/sqrt). -/
abbrev RVec3 : Type := ℝ × ℝ × ℝ

/-- Componentwise difference `a - b` of float3 vectors. -/
def rvsub (a b : RVec3) : RVec3 := (a.1 - b.1, a.2.1 - b.2.1, a.2.2 - b.2.2)

/-- HLSL `length(v)`. -/
noncomputable def rvlength (v : RVec3) : ℝ :=
  Real.sqrt (v.1 ^ 2 + v.2.1 ^ 2 + v.2.2 ^ 2)

/-- One xy column of the fog grid as CS_FinalIntegration reads it:
`scattering k` / `extinction k` are `LightScattering[uint3(xy, k)].rgb` and
`.w`, `slicePos k` is `ComputeCellWorldPosition(uint3(xy, k), 0.5)` (the
slice-centre world position), `viewPos` is `GBuffer.ViewPos`, and
`gridSizeZ` is `GridSizeInt.z`. -/
structure FogColumn where
  gridSizeZ : ℕ
  scattering : ℕ → Fin 3 → ℝ
  extinction : ℕ → ℝ
  slicePos : ℕ → RVec3
  viewPos : RVec3

/-- The loop state of CS_FinalIntegration:
`accumulatedLightingAndTransmittance.rgb`, its `.a` channel, and
`previousSliceWorldPosition`. -/
structure IntegrationState where
  rgb : Fin 3 → ℝ
  transmittance : ℝ
  prevPos : RVec3

/-- The state before the loop:
`accumulatedLightingAndTransmittance = float4(0, 0, 0, 1)` and
`previousSliceWorldPosition = GBuffer.ViewPos`. -/
def integrationInit (col : FogColumn) : IntegrationState :=
  ⟨fun _ => 0, 1, col.viewPos⟩

/-- One iteration of the CS_FinalIntegration loop at `layerIndex` (the
ENERGY_CONSERVING_INTEGRATION=1 path compiled in the source): compute the
step length to the previous slice position, the slice transmittance
`exp(-extinction * stepLength)`, add the energy-conserving slice integral
scaled by the accumulated transmittance, then multiply the accumulated
transmittance. -/
noncomputable def integrationStep (col : FogColumn) (s : IntegrationState)
    (layerIndex : ℕ) : IntegrationState :=
  let layerWorldPosition := col.slicePos layerIndex
  let stepLength := rvlength (rvsub layerWorldPosition s.prevPos)
  let transmittance := Real.exp (-(col.extinction layerIndex * stepLength))
  let scatteringIntegratedOverSlice : Fin 3 → ℝ := fun c =>
    (col.scattering layerIndex c - col.scattering layerIndex c * transmittance) /
      max (col.extinction layerIndex) 0.00001
  { rgb := fun c => s.rgb c + scatteringIntegratedOverSlice c * s.transmittance
    transmittance := s.transmittance * transmittance
    prevPos := layerWorldPosition }

/-- The loop state after the first `m` slices (the loop walks layerIndex
0, 1, ... in increasing z order, front to back). -/
noncomputable def integrationStateAfter (col : FogColumn) (m : ℕ) : IntegrationState :=
  (List.range m).foldl (integrationStep col) (integrationInit col)

/-- The value CS_FinalIntegration writes to
`RWIntegratedLightScattering[uint3(xy, layerIndex)]` (the non-debug path):
the accumulated state after processing that slice; `none` when the slice is
outside the loop range. -/
noncomputable def finalIntegrationWrite (col : FogColumn) (layerIndex : ℕ) :
    Option IntegrationState :=
  if layerIndex < col.gridSizeZ then some (integrationStateAfter col (layerIndex + 1)) else none

/-- The previous slice-centre position the loop holds when it processes
slice `k`: the camera position for the first slice, slice `k-1`'s centre
afterwards. -/
def slicePrevPos (col : FogColumn) : ℕ → RVec3
  | 0 => col.viewPos
  | k + 1 => col.slicePos k

/-- The step length of slice `k`: the distance between consecutive
slice-centre world positions (camera to slice 0 for the first step). -/
noncomputable def sliceStepLength (col : FogColumn) (k : ℕ) : ℝ :=
  rvlength (rvsub (col.slicePos k) (slicePrevPos col k))

/-- The transmittance of slice `k`: `exp(-extinction * stepLength)`. -/
noncomputable def sliceTransmittance (col : FogColumn) (k : ℕ) : ℝ :=
  Real.exp (-(col.extinction k * sliceStepLength col k))

/-- The energy-conserving integral of slice `k`, channel `c`:
`(S - S * T) / max(extinction, 0.00001)`. -/
noncomputable def sliceScatteringIntegrated (col : FogColumn) (k : ℕ) (c : Fin 3) : ℝ :=
  (col.scattering k c - col.scattering k c * sliceTransmittance col k) /
    max (col.extinction k) 0.00001

lemma integrationStateAfter_succ (col : FogColumn) (m : ℕ) :
    integrationStateAfter col (m + 1) =
      integrationStep col (integrationStateAfter col m) m := by
  rw [integrationStateAfter, integrationStateAfter, List.range_succ, List.foldl_append,
    List.foldl_cons, List.foldl_nil]

lemma prevPos_integrationStateAfter (col : FogColumn) :
    ∀ m, (integrationStateAfter col m).prevPos = slicePrevPos col m
  | 0 => rfl
  | m + 1 => by rw [integrationStateAfter_succ]; rfl

lemma transmittance_integrationStateAfter (col : FogColumn) (m : ℕ) :
    (integrationStateAfter col m).transmittance =
      ∏ i ∈ Finset.range m, sliceTransmittance col i := by
  induction m with
  | zero => simp [integrationStateAfter, integrationInit]
  | succ m ih =>
      rw [integrationStateAfter_succ, integrationStep]
      dsimp only
      rw [prevPos_integrationStateAfter col m, Finset.prod_range_succ, ih]
      rfl

lemma rgb_integrationStateAfter (col : FogColumn) (m : ℕ) (c : Fin 3) :
    (integrationStateAfter col m).rgb c =
      ∑ j ∈ Finset.range m, sliceScatteringIntegrated col j c *
        ∏ i ∈ Finset.range j, sliceTransmittance col i := by
  induction m with
  | zero => simp [integrationStateAfter, integrationInit]
  | succ m ih =>
      rw [integrationStateAfter_succ, integrationStep]
      dsimp only
      rw [prevPos_integrationStateAfter col m, Finset.sum_range_succ, ih,
        transmittance_integrationStateAfter col m]
      rfl

lemma sliceStepLength_nonneg (col : FogColumn) (k : ℕ) : 0 ≤ sliceStepLength col k :=
  Real.sqrt_nonneg _

lemma sliceTransmittance_pos (col : FogColumn) (k : ℕ) : 0 < sliceTransmittance col k :=
  Real.exp_pos _

lemma sliceTransmittance_le_one (col : FogColumn) (k : ℕ) (h : 0 ≤ col.extinction k) :
    sliceTransmittance col k ≤ 1 := by
  have hexp : -(col.extinction k * sliceStepLength col k) ≤ 0 :=
    neg_nonpos.mpr (mul_nonneg h (sliceStepLength_nonneg col k))
  calc Real.exp (-(col.extinction k * sliceStepLength col k)) ≤ Real.exp 0 :=
        Real.exp_le_exp.mpr hexp
    _ = 1 := Real.exp_zero

lemma integrationTransmittance_pos (col : FogColumn) (k : ℕ) :
    0 < (integrationStateAfter col k).transmittance := by
  rw [transmittance_integrationStateAfter]
  exact Finset.prod_pos fun i _ => sliceTransmittance_pos col i

/-- Claim C1: in CS_FinalIntegration each xy column is accumulated over the
slices in increasing z order; writing slice `layerIndex` yields an
accumulated transmittance equal to the product of the per-slice factors
`exp(-sigma_i * stepLength_i)` over slices 0..layerIndex (stepLength being
the distance between consecutive slice-centre world positions, from the
camera for slice 0), and an accumulated colour equal to the sum over slices
j ≤ layerIndex of the energy-conserving slice integral
`(S_j - S_j T_j) / max(sigma_j, 0.00001)` weighted by the transmittance
accumulated strictly before slice j — exactly the recurrence that adds the
slice integral times the accumulated transmittance and then multiplies the
accumulated transmittance by the slice transmittance. -/
theorem claim1_cs_final_integration (col : FogColumn) (layerIndex : ℕ)
    (h : layerIndex < col.gridSizeZ) :
    ∃ written, finalIntegrationWrite col layerIndex = some written ∧
      written.transmittance = ∏ i ∈ Finset.range (layerIndex + 1),
        Real.exp (-(col.extinction i * sliceStepLength col i)) ∧
      ∀ c, written.rgb c = ∑ j ∈ Finset.range (layerIndex + 1),
        ((col.scattering j c - col.scattering j c * sliceTransmittance col j) /
            max (col.extinction j) 0.00001) *
          ∏ i ∈ Finset.range j, sliceTransmittance col i := by
  refine ⟨integrationStateAfter col (layerIndex + 1), ?_, ?_, fun c => ?_⟩
  · rw [finalIntegrationWrite, if_pos h]
  · exact transmittance_integrationStateAfter col (layerIndex + 1)
  · exact rgb_integrationStateAfter col (layerIndex + 1) c

/-- A trivial one-slice fog column with zero scattering and extinction. -/
noncomputable def fogColumnTrivial : FogColumn :=
  ⟨1, fun _ _ => 0, fun _ => 0, fun _ => (0, 0, 0), (0, 0, 0)⟩

/-- Witness for C1 on the trivial one-slice column at slice 0. -/
theorem claim1_cs_final_integration_witness :
    0 < fogColumnTrivial.gridSizeZ ∧
    ∃ written, finalIntegrationWrite fogColumnTrivial 0 = some written ∧
      written.transmittance = ∏ i ∈ Finset.range (0 + 1),
        Real.exp (-(fogColumnTrivial.extinction i * sliceStepLength fogColumnTrivial i)) ∧
      ∀ c, written.rgb c = ∑ j ∈ Finset.range (0 + 1),
        ((fogColumnTrivial.scattering j c -
            fogColumnTrivial.scattering j c * sliceTransmittance fogColumnTrivial j) /
            max (fogColumnTrivial.extinction j) 0.00001) *
          ∏ i ∈ Finset.range j, sliceTransmittance fogColumnTrivial i :=
  ⟨Nat.one_pos, claim1_cs_final_integration fogColumnTrivial 0 Nat.one_pos⟩

/-- Claim C2: in CS_FinalIntegration, for a column whose slices in range all
have non-negative extinction, the accumulated transmittance starts at 1, is
multiplied each slice by a factor `exp(-sigma * stepLength)` that lies in
(0, 1], and is therefore non-increasing from slice to slice and stays in
(0, 1] for every slice written. -/
theorem claim2_final_integration_transmittance_invariant (col : FogColumn)
    (h : ∀ i < col.gridSizeZ, 0 ≤ col.extinction i) :
    (integrationStateAfter col 0).transmittance = 1 ∧
    (∀ k < col.gridSizeZ, 0 < sliceTransmittance col k ∧ sliceTransmittance col k ≤ 1) ∧
    (∀ k < col.gridSizeZ,
      (integrationStateAfter col (k + 1)).transmittance =
        (integrationStateAfter col k).transmittance * sliceTransmittance col k) ∧
    (∀ k < col.gridSizeZ,
      (integrationStateAfter col (k + 1)).transmittance ≤
        (integrationStateAfter col k).transmittance) ∧
    (∀ k ≤ col.gridSizeZ, 0 < (integrationStateAfter col k).transmittance ∧
      (integrationStateAfter col k).transmittance ≤ 1) := by
  have hstep : ∀ k, (integrationStateAfter col (k + 1)).transmittance =
      (integrationStateAfter col k).transmittance * sliceTransmittance col k := by
    intro k
    rw [transmittance_integrationStateAfter, transmittance_integrationStateAfter,
      Finset.prod_range_succ]
  refine ⟨rfl, fun k hk => ⟨sliceTransmittance_pos col k, sliceTransmittance_le_one col k (h k hk)⟩,
    fun k _ => hstep k, fun k hk => ?_, fun k hk => ⟨integrationTransmittance_pos col k, ?_⟩⟩
  · rw [hstep k]
    exact mul_le_of_le_one_right (integrationTransmittance_pos col k).le
      (sliceTransmittance_le_one col k (h k hk))
  · rw [transmittance_integrationStateAfter]
    refine Finset.prod_le_one (fun i _ => (sliceTransmittance_pos col i).le) fun i hi => ?_
    exact sliceTransmittance_le_one col i (h i (lt_of_lt_of_le (Finset.mem_range.mp hi) hk))

/-- Witness for C2 on the trivial one-slice column (extinction 0 on every
slice in range). -/
theorem claim2_final_integration_transmittance_invariant_witness :
    (∀ i < fogColumnTrivial.gridSizeZ, 0 ≤ fogColumnTrivial.extinction i) ∧
    ((integrationStateAfter fogColumnTrivial 0).transmittance = 1 ∧
    (∀ k < fogColumnTrivial.gridSizeZ, 0 < sliceTransmittance fogColumnTrivial k ∧
      sliceTransmittance fogColumnTrivial k ≤ 1) ∧
    (∀ k < fogColumnTrivial.gridSizeZ,
      (integrationStateAfter fogColumnTrivial (k + 1)).transmittance =
        (integrationStateAfter fogColumnTrivial k).transmittance * sliceTransmittance fogColumnTrivial k) ∧
    (∀ k < fogColumnTrivial.gridSizeZ,
      (integrationStateAfter fogColumnTrivial (k + 1)).transmittance ≤
        (integrationStateAfter fogColumnTrivial k).transmittance) ∧
    (∀ k ≤ fogColumnTrivial.gridSizeZ, 0 < (integrationStateAfter fogColumnTrivial k).transmittance ∧
      (integrationStateAfter fogColumnTrivial k).transmittance ≤ 1)) :=
  ⟨fun _ _ => le_refl 0,
   claim2_final_integration_transmittance_invariant fogColumnTrivial (fun _ _ => le_refl 0)⟩
